import Mathlib

/-!
Verification of the themed in-memory CRUD REST service (`app.py`).

The development shallowly embeds the request-handling core of the service:
the theme registry, the per-(theme, entity-type) entity store, the
token-checking middleware (`token_required`), the probabilistic fault
injector (`simulate_errors`, modelled as a pure function of the drawn
random values), the five entity handlers, and the deterministic
`/error-test` endpoint (`test_errors`).

Python dictionaries are modelled as association lists with dict-update
semantics (`dget`, `dinsert`, `dmerge`): `dinsert` overwrites the value of
an existing key in place and appends a fresh key at the end, which is
exactly the behaviour of successive dictionary insertions, so the literal
`\x7b**a, **b\x7d` becomes `dmerge a b`.  Timestamps and random draws are
passed in as explicit parameters.
-/

namespace RestApi

/-- JSON-compatible field values: strings and integers are the only value
shapes the modelled code ever constructs or compares. -/
inductive Val where
  | s (x : String)
  | n (x : Int)
deriving DecidableEq, Repr

/-- An entity record: a Python dict from field names to values, modelled
as an association list in insertion order. -/
abbrev EntityRec := List (String × Val)

/-- Dictionary lookup: first binding of the key (the only binding, for
lists built by `dinsert`). -/
def dget : EntityRec → String → Option Val
  | [], _ => none
  | (k, v) :: t, key => if k = key then some v else dget t key

/-- The key set of a record, in insertion order. -/
def keys (r : EntityRec) : List String := r.map (fun kv => kv.1)

/-- Python dict assignment `d[key] = v`: overwrite the existing binding in
place, or append a new binding at the end. -/
def dinsert : EntityRec → String → Val → EntityRec
  | [], key, v => [(key, v)]
  | (k, w) :: t, key, v =>
    if k = key then (key, v) :: t else (k, w) :: dinsert t key v

/-- Python `\x7b**a, **b\x7d`: insert all bindings of `b` into `a`, later
bindings winning. -/
def dmerge (a b : EntityRec) : EntityRec :=
  b.foldl (fun acc kv => dinsert acc kv.1 kv.2) a

/-- Left-biased alternative on optional values. -/
def oalt : Option Val → Option Val → Option Val
  | some v, _ => some v
  | none, o => o

theorem oalt_none_right (o : Option Val) : oalt o none = o := by
  cases o <;> rfl

theorem dget_append (xs ys : EntityRec) (k : String) :
    dget (xs ++ ys) k = oalt (dget xs k) (dget ys k) := by
  induction xs with
  | nil => rfl
  | cons hd t ih =>
    obtain ⟨k0, v0⟩ := hd
    by_cases h : k0 = k <;> simp [dget, h, ih, oalt]

theorem dget_dinsert (r : EntityRec) (key : String) (v : Val) (k : String) :
    dget (dinsert r key v) k = if k = key then some v else dget r k := by
  induction r with
  | nil =>
    by_cases h : k = key
    · simp [dinsert, dget, h]
    · have h2 : ¬ key = k := fun hh => h hh.symm
      simp [dinsert, dget, h, h2]
  | cons hd t ih =>
    obtain ⟨k0, v0⟩ := hd
    by_cases h0 : k0 = key
    · subst h0
      by_cases h : k = k0
      · subst h; simp [dinsert, dget]
      · have h2 : ¬ k0 = k := fun hh => h hh.symm
        simp [dinsert, dget, h, h2]
    · by_cases h : k = k0
      · subst h
        simp [dinsert, dget, h0]
      · have h2 : ¬ k0 = k := fun hh => h hh.symm
        simp [dinsert, dget, h0, h, h2, ih]

theorem dget_dmerge (a b : EntityRec) (k : String) :
    dget (dmerge a b) k = oalt (dget b.reverse k) (dget a k) := by
  induction b generalizing a with
  | nil => simp [dmerge, dget, oalt]
  | cons hd t ih =>
    obtain ⟨k0, v0⟩ := hd
    have step : dmerge a ((k0, v0) :: t) = dmerge (dinsert a k0 v0) t := rfl
    rw [step, ih, List.reverse_cons, dget_append, dget_dinsert]
    by_cases h : k = k0
    · subst h
      cases hrev : dget t.reverse k <;> simp [oalt, dget, hrev]
    · have h2 : ¬ k0 = k := fun hh => h hh.symm
      cases hrev : dget t.reverse k <;> simp [oalt, dget, h, h2, hrev]

theorem dget_eq_none_iff (r : EntityRec) (k : String) :
    dget r k = none ↔ k ∉ keys r := by
  induction r with
  | nil => simp [dget, keys]
  | cons hd t ih =>
    obtain ⟨k0, v0⟩ := hd
    by_cases h : k0 = k <;> simp [dget, keys, h, ih, Ne.symm]

theorem dget_reverse_eq_none (r : EntityRec) (k : String)
    (h : dget r k = none) : dget r.reverse k = none := by
  rw [dget_eq_none_iff] at h ⊢
  simpa [keys] using h

theorem dget_reverse_of_nodup (r : EntityRec) (k : String)
    (hnd : (keys r).Nodup) : dget r.reverse k = dget r k := by
  induction r with
  | nil => rfl
  | cons hd t ih =>
    obtain ⟨k0, v0⟩ := hd
    simp only [keys, List.map_cons, List.nodup_cons] at hnd
    rw [List.reverse_cons, dget_append]
    by_cases h : k = k0
    · subst h
      have : dget t k = none := by
        rw [dget_eq_none_iff]
        simpa [keys] using hnd.1
      rw [dget_reverse_eq_none t k this]
      simp [oalt, dget]
    · have h2 : ¬ k0 = k := fun hh => h hh.symm
      rw [ih hnd.2]
      cases hv : dget t k <;> simp [oalt, dget, h, h2, hv]

/-! ### Injectivity of the decimal rendering `toString : Nat → String`

The service assigns entity ids with Python `str(len(collection) + 1)`,
embedded as `toString (n + 1)`.  Distinctness of ids therefore needs that
the decimal rendering of natural numbers is injective, proved here by
evaluating the digit list back to the number it denotes. -/

/-- Numeric value of a decimal digit character. -/
def digitVal (c : Char) : Nat := c.toNat - 48

/-- Evaluate a digit list (most significant first) on top of accumulator
`a`. -/
def digitsVal (a : Nat) (ds : List Char) : Nat :=
  ds.foldl (fun acc c => 10 * acc + digitVal c) a

theorem digitVal_digitChar (m : Nat) (h : m < 10) :
    digitVal (Nat.digitChar m) = m := by
  interval_cases m <;> rfl

theorem digitsVal_append (a : Nat) (xs ys : List Char) :
    digitsVal a (xs ++ ys) = digitsVal (digitsVal a xs) ys := by
  simp [digitsVal, List.foldl_append]

theorem toDigitsCore_append (f n : Nat) (ds : List Char) :
    Nat.toDigitsCore 10 f n ds = Nat.toDigitsCore 10 f n [] ++ ds := by
  induction f generalizing n ds with
  | zero => simp [Nat.toDigitsCore]
  | succ f ih =>
    simp only [Nat.toDigitsCore]
    by_cases h : n / 10 = 0
    · simp [h]
    · simp only [h, if_false]
      rw [ih (n / 10) (Nat.digitChar (n % 10) :: ds),
        ih (n / 10) [Nat.digitChar (n % 10)], List.append_assoc]
      rfl

theorem digitsVal_toDigitsCore (f : Nat) :
    ∀ n a, n < f →
      digitsVal a (Nat.toDigitsCore 10 f n []) =
        a * 10 ^ (Nat.toDigitsCore 10 f n []).length + n := by
  induction f with
  | zero => intro n a h; omega
  | succ f ih =>
    intro n a h
    by_cases hq : n / 10 = 0
    · have hn : n < 10 := by omega
      have hmod : n % 10 = n := Nat.mod_eq_of_lt hn
      simp [Nat.toDigitsCore, hq, digitsVal, digitVal_digitChar, hmod, hn]
      omega
    · have hqlt : n / 10 < n := Nat.div_lt_self (by omega) (by omega)
      have hstep : Nat.toDigitsCore 10 (f + 1) n [] =
          Nat.toDigitsCore 10 f (n / 10) [] ++ [Nat.digitChar (n % 10)] := by
        simp only [Nat.toDigitsCore, hq, if_false]
        exact toDigitsCore_append f (n / 10) [Nat.digitChar (n % 10)]
      have hmod10 : n % 10 < 10 := Nat.mod_lt _ (by omega)
      rw [hstep, digitsVal_append, ih (n / 10) a (by omega)]
      simp [digitsVal, digitVal_digitChar _ hmod10, List.length_append,
        Nat.pow_succ]
      have hdm : 10 * (n / 10) + n % 10 = n := Nat.div_add_mod n 10
      ring_nf
      omega

theorem digitsVal_toDigits (n : Nat) :
    digitsVal 0 (Nat.toDigits 10 n) = n := by
  have := digitsVal_toDigitsCore (n + 1) n 0 (Nat.lt_succ_self n)
  simpa [Nat.toDigits] using this

theorem natToString_injective : Function.Injective (toString : Nat → String) := by
  intro m n h
  have hm : toString m = (Nat.toDigits 10 m).asString := rfl
  have hn : toString n = (Nat.toDigits 10 n).asString := rfl
  rw [hm, hn] at h
  have hdata : Nat.toDigits 10 m = Nat.toDigits 10 n :=
    congrArg String.data h
  calc m = digitsVal 0 (Nat.toDigits 10 m) := (digitsVal_toDigits m).symm
    _ = digitsVal 0 (Nat.toDigits 10 n) := by rw [hdata]
    _ = n := digitsVal_toDigits n

/-! ### Theme registry and data store -/

/-- Static description of one theme: display name, description and the
declared entity types, as in the `THEMES` dictionary of `app.py`. -/
structure ThemeInfo where
  name : String
  description : String
  entities : List String
deriving DecidableEq, Repr

/-- The `THEMES` configuration dictionary. -/
def THEMES : List (String × ThemeInfo) :=
  [("space_exploration",
    ⟨"Space Exploration API",
     "API for managing space missions and astronaut data",
     ["missions", "astronauts", "spacecraft"]⟩),
   ("fantasy_rpg",
    ⟨"Fantasy RPG API",
     "API for managing characters, quests and items in a fantasy world",
     ["characters", "quests", "items"]⟩),
   ("smart_city",
    ⟨"Smart City API",
     "API for managing smart city infrastructure and services",
     ["traffic_sensors", "public_transport", "energy_consumption"]⟩)]

/-- `theme_id in THEMES` / `THEMES[theme_id]` lookup. -/
def findTheme (th : String) : Option ThemeInfo :=
  (THEMES.find? (fun p => p.1 == th)).map (fun p => p.2)

/-- The in-memory `data_store`, keyed by theme and entity type.  Keys
outside the registry are never consulted by the handlers (validation
rejects them first), so the total function returning `[]` elsewhere is a
faithful model of the dictionary initialised with one empty list per
declared pair. -/
abbrev Store := String → String → List EntityRec

/-- The store as initialised at process start: every collection empty. -/
def data_store : Store := fun _ _ => []

/-- Replace one collection of the store. -/
def setCol (st : Store) (th et : String) (c : List EntityRec) : Store :=
  fun t e => if t = th ∧ e = et then c else st t e

/-- The store after `init_sample_data()` has seeded six collections. -/
def seeded_store : Store := fun th et =>
  if th = "space_exploration" ∧ et = "missions" then
    [[("id", .s "1"), ("name", .s "Mars Rover Mission"),
      ("description", .s "Explore the surface of Mars"),
      ("status", .s "in-progress"),
      ("created_at", .s "2023-01-15 10:30:00")],
     [("id", .s "2"), ("name", .s "Jupiter Orbital"),
      ("description", .s "Study Jupiter\x27s atmosphere"),
      ("status", .s "planned"),
      ("created_at", .s "2023-02-20 14:45:00")]]
  else if th = "space_exploration" ∧ et = "astronauts" then
    [[("id", .s "1"), ("name", .s "Dr. Sarah Chen"),
      ("description", .s "Astrophysicist and mission specialist"),
      ("specialty", .s "Planetary geology"),
      ("created_at", .s "2023-01-10 09:20:00")]]
  else if th = "fantasy_rpg" ∧ et = "characters" then
    [[("id", .s "1"), ("name", .s "Elindra"),
      ("description", .s "Elven ranger from the western forests"),
      ("class", .s "Ranger"), ("level", .n 5),
      ("created_at", .s "2023-03-05 11:15:00")]]
  else if th = "fantasy_rpg" ∧ et = "quests" then
    [[("id", .s "1"), ("name", .s "The Lost Artifact"),
      ("description", .s "Recover an ancient artifact from the ruins"),
      ("difficulty", .s "Medium"), ("reward", .s "500 gold"),
      ("created_at", .s "2023-03-10 16:20:00")]]
  else if th = "smart_city" ∧ et = "traffic_sensors" then
    [[("id", .s "1"), ("name", .s "Downtown Junction A"),
      ("description", .s "Main intersection traffic monitor"),
      ("status", .s "active"),
      ("created_at", .s "2023-04-12 08:30:00")]]
  else if th = "smart_city" ∧ et = "public_transport" then
    [[("id", .s "1"), ("name", .s "Metro Line 1"),
      ("description", .s "North-South metro connection"),
      ("status", .s "operational"), ("capacity", .n 1200),
      ("created_at", .s "2023-04-15 13:45:00")]]
  else []

/-! ### Auth gate (`token_required`) -/

/-- Outcome of the token check. -/
inductive AuthResult where
  | authorized
  | missingToken
  | invalidToken
deriving DecidableEq, Repr

/-- The `token_required` middleware: `request.headers.get` yields `none`
when the header is absent; Python `if not token` also treats an empty
header value as missing. -/
def token_required (token : Option String) : AuthResult :=
  match token with
  | none => .missingToken
  | some t =>
    if t = "" then .missingToken
    else if t ≠ "student_test_token" then .invalidToken
    else .authorized

/-! ### Fault injector (`simulate_errors`) -/

/-- The `ERROR_TYPES` configuration: kind, weight (`chance`) and
description, in dictionary order. -/
def ERROR_TYPES : List (String × ℚ × String) :=
  [("timeout", (1/10, "Server timeout simulation")),
   ("rate_limit", (3/20, "Rate limiting simulation")),
   ("server_error", (1/10, "Internal server error simulation")),
   ("validation_error", (1/5, "Data validation error simulation"))]

/-- Sum of the relative weights (`0.55`). -/
def totalWeight : ℚ := (ERROR_TYPES.map (fun p => p.2.1)).sum

/-- `random.choices(ks, weights, k=1)` as a function of the scaled draw
`u ∈ [0, totalWeight)`: walk the cumulative weights; the final singleton
clamps exactly like the `bisect` call in `random.choices`. -/
def weightedChoice : List (String × ℚ) → ℚ → String
  | [], _ => ""
  | [(k, _)], _ => k
  | (k, w) :: rest, u => if u < w then k else weightedChoice rest (u - w)

/-- Fault-kind selection among the `ERROR_TYPES` keys. -/
def chooseFault (u : ℚ) : String :=
  weightedChoice (ERROR_TYPES.map (fun p => (p.1, p.2.1))) u

/-- What the fault injector does to a request: pass it through, delay it
and then pass it through, or reject it with a status and message. -/
inductive FaultOutcome where
  | pass
  | delayPass (seconds : ℚ)
  | reject (code : Nat) (description : String)
deriving DecidableEq, Repr

/-- The `simulate_errors` middleware as a function of the drawn random
values: `r` is the first uniform draw in `[0,1)`, `u` the scaled
weighted-choice draw in `[0, totalWeight)`, and `d` the uniform delay
drawn from `[1, timeout_seconds]` for the timeout kind. -/
def simulate_errors (error_rate r u d : ℚ) : FaultOutcome :=
  if r < error_rate then
    let et := chooseFault u
    if et = "timeout" then .delayPass d
    else if et = "rate_limit" then
      .reject 429 "Rate limit exceeded. Try again later."
    else if et = "server_error" then
      .reject 500 "Internal server error occurred"
    else if et = "validation_error" then
      .reject 422 "Invalid data format or content"
    else .pass
  else .pass

/-! ### Entity handlers -/

/-- Success bodies of the entity endpoints. -/
inductive RBody where
  | items (theme entityType : String) (records : List EntityRec)
  | record (r : EntityRec)
  | deleted (message : String) (r : EntityRec)
deriving DecidableEq, Repr

/-- An HTTP response of an entity endpoint: success with body, or an
`abort(status, description)` error. -/
inductive EResult where
  | ok (status : Nat) (body : RBody)
  | err (status : Nat) (description : String)
deriving DecidableEq, Repr

/-- Status code of a response. -/
def EResult.status : EResult → Nat
  | .ok s _ => s
  | .err s _ => s

def themeNotFoundMsg (th : String) : String :=
  "Theme \x27" ++ th ++ "\x27 not found"

def entityTypeNotFoundMsg (et th : String) : String :=
  "Entity type \x27" ++ et ++ "\x27 not found in theme \x27" ++ th ++ "\x27"

def entityNotFoundMsg (eid : String) : String :=
  "Entity with ID \x27" ++ eid ++ "\x27 not found"

/-- `GET /themes/<th>/<et>` handler body (after middleware). -/
def list_entities (th et : String) (st : Store) : EResult × Store :=
  match findTheme th with
  | none => (.err 404 (themeNotFoundMsg th), st)
  | some info =>
    if et ∈ info.entities then (.ok 200 (.items th et (st th et)), st)
    else (.err 404 (entityTypeNotFoundMsg et th), st)

/-- The required fields checked by `create_entity`. -/
def required_fields : List String := ["name", "description"]

/-- `POST /themes/<th>/<et>` handler body.  The request body is `none`
when absent or unparsable (`request.get_json(silent=True)`); an empty
object is falsy in Python, hence the separate `data = []` test. -/
def create_entity (th et : String) (body : Option EntityRec) (now : String)
    (st : Store) : EResult × Store :=
  match findTheme th with
  | none => (.err 404 (themeNotFoundMsg th), st)
  | some info =>
    if et ∈ info.entities then
      match body with
      | none => (.err 400 "Invalid JSON data", st)
      | some data =>
        if data = [] then (.err 400 "Invalid JSON data", st)
        else if required_fields.all (fun f => (keys data).contains f) then
          let coll := st th et
          let newEntity :=
            dinsert (dmerge [("id", .s (toString (coll.length + 1)))] data)
              "created_at" (.s now)
          (.ok 201 (.record newEntity), setCol st th et (coll ++ [newEntity]))
        else
          (.err 400 ("Missing required fields: " ++ String.intercalate ", "
            (required_fields.filter (fun f => !(keys data).contains f))), st)
    else (.err 404 (entityTypeNotFoundMsg et th), st)

/-- First record whose `id` field equals the requested id (the scan in
`get_entity`). -/
def findRec : List EntityRec → String → Option EntityRec
  | [], _ => none
  | r :: t, eid =>
    if dget r "id" = some (.s eid) then some r else findRec t eid

/-- Index of the first record whose `id` field equals the requested id
(the `enumerate` scans in `update_entity` / `delete_entity`). -/
def findIdx : List EntityRec → String → Option Nat
  | [], _ => none
  | r :: t, eid =>
    if dget r "id" = some (.s eid) then some 0
    else (findIdx t eid).map (fun i => i + 1)

/-- `GET /themes/<th>/<et>/<eid>` handler body. -/
def get_entity (th et eid : String) (st : Store) : EResult × Store :=
  match findTheme th with
  | none => (.err 404 (themeNotFoundMsg th), st)
  | some info =>
    if et ∈ info.entities then
      match findRec (st th et) eid with
      | some r => (.ok 200 (.record r), st)
      | none => (.err 404 (entityNotFoundMsg eid), st)
    else (.err 404 (entityTypeNotFoundMsg et th), st)

/-- The updated record built by `update_entity`: old fields, overwritten
by the caller fields, with `id`, `created_at` and `updated_at` forced.
(`entity["created_at"]` raises in Python when absent; every stored record
carries the field, and the theorems hypothesise its presence.) -/
def updateRecord (entity data : EntityRec) (eid now : String) : EntityRec :=
  dinsert
    (dinsert (dinsert (dmerge entity data) "id" (.s eid))
      "created_at" ((dget entity "created_at").getD (.s "")))
    "updated_at" (.s now)

/-- `PUT /themes/<th>/<et>/<eid>` handler body. -/
def update_entity (th et eid : String) (body : Option EntityRec)
    (now : String) (st : Store) : EResult × Store :=
  match findTheme th with
  | none => (.err 404 (themeNotFoundMsg th), st)
  | some info =>
    if et ∈ info.entities then
      match body with
      | none => (.err 400 "Invalid JSON data", st)
      | some data =>
        if data = [] then (.err 400 "Invalid JSON data", st)
        else
          let coll := st th et
          match findIdx coll eid with
          | none => (.err 404 (entityNotFoundMsg eid), st)
          | some i =>
            let entity := coll.getD i []
            let updated := updateRecord entity data eid now
            (.ok 200 (.record updated), setCol st th et (coll.set i updated))
    else (.err 404 (entityTypeNotFoundMsg et th), st)

/-- `DELETE /themes/<th>/<et>/<eid>` handler body. -/
def delete_entity (th et eid : String) (st : Store) : EResult × Store :=
  match findTheme th with
  | none => (.err 404 (themeNotFoundMsg th), st)
  | some info =>
    if et ∈ info.entities then
      let coll := st th et
      match findIdx coll eid with
      | none => (.err 404 (entityNotFoundMsg eid), st)
      | some i =>
        (.ok 200 (.deleted
          ("Entity \x27" ++ eid ++ "\x27 deleted successfully")
          (coll.getD i [])),
         setCol st th et (coll.eraseIdx i))
    else (.err 404 (entityTypeNotFoundMsg et th), st)

/-! ### Middleware pipeline

The decorators are applied bottom-up, so at request time the registered
view runs `token_required` first, then `simulate_errors`, then the handler
body (which performs the theme and entity-type validation). -/

/-- The `simulate_errors` wrapper around a handler: a rejection short-cuts
the handler, a pass (delayed or not) runs it. -/
def runFault (rate r u d : ℚ) (h : Store → EResult × Store) (st : Store) :
    EResult × Store :=
  match simulate_errors rate r u d with
  | .reject code msg => (.err code msg, st)
  | _ => h st

/-- The full decorated view: `token_required` around `simulate_errors`
around the handler body. -/
def runProtected (rate r u d : ℚ) (token : Option String)
    (h : Store → EResult × Store) (st : Store) : EResult × Store :=
  match token_required token with
  | .missingToken => (.err 401 "API token is missing", st)
  | .invalidToken => (.err 403 "Invalid API token", st)
  | .authorized => runFault rate r u d h st

def listEndpoint (rate r u d : ℚ) (token : Option String) (th et : String)
    (st : Store) : EResult × Store :=
  runProtected rate r u d token (list_entities th et) st

def createEndpoint (rate r u d : ℚ) (token : Option String) (th et : String)
    (body : Option EntityRec) (now : String) (st : Store) : EResult × Store :=
  runProtected rate r u d token (create_entity th et body now) st

def getEndpoint (rate r u d : ℚ) (token : Option String) (th et eid : String)
    (st : Store) : EResult × Store :=
  runProtected rate r u d token (get_entity th et eid) st

def updateEndpoint (rate r u d : ℚ) (token : Option String)
    (th et eid : String) (body : Option EntityRec) (now : String)
    (st : Store) : EResult × Store :=
  runProtected rate r u d token (update_entity th et eid body now) st

def deleteEndpoint (rate r u d : ℚ) (token : Option String)
    (th et eid : String) (st : Store) : EResult × Store :=
  runProtected rate r u d token (delete_entity th et eid) st

/-! ### Error-test endpoint -/

/-- Body of an `/error-test` response: a message (success or error
description) or the catalog of available error kinds. -/
inductive TestBody where
  | msg (m : String)
  | catalog (available : List (String × String))
deriving DecidableEq, Repr

/-- An `/error-test` response: seconds slept before responding, status
code and body. -/
structure TestResponse where
  sleepSeconds : ℚ
  status : Nat
  body : TestBody
deriving DecidableEq, Repr

/-- The `available_errors` catalog: kind names with their descriptions. -/
def available_errors : List (String × String) :=
  ERROR_TYPES.map (fun p => (p.1, p.2.2))

/-- The `/error-test` endpoint (`test_errors` in `app.py`) as a function
of the `type` query parameter (`none` when absent).  It takes no random
draws: its behaviour is fully determined by the parameter. -/
def test_errors (t : Option String) : TestResponse :=
  match t with
  | none => ⟨0, 200, .catalog available_errors⟩
  | some et =>
    if et = "" ∨ ¬ (ERROR_TYPES.map (fun p => p.1)).contains et then
      ⟨0, 200, .catalog available_errors⟩
    else if et = "timeout" then ⟨3, 200, .msg "Response after timeout"⟩
    else if et = "rate_limit" then
      ⟨0, 429, .msg "Rate limit exceeded. Try again later."⟩
    else if et = "server_error" then
      ⟨0, 500, .msg "Internal server error occurred"⟩
    else ⟨0, 422, .msg "Invalid data format or content"⟩

/-! ### The store as a state machine

Only the three mutating handlers ever change the store, and the
middleware layers either return the store unchanged or defer to the
handler, so the stores reachable through the HTTP surface are exactly the
stores reachable by folding handler-level operations. -/

/-- A mutating store operation (the arguments of one handler call). -/
inductive Op where
  | createOp (th et : String) (body : Option EntityRec) (now : String)
  | updateOp (th et eid : String) (body : Option EntityRec) (now : String)
  | deleteOp (th et eid : String)

/-- The store left behind by one handler call. -/
def applyOp (st : Store) : Op → Store
  | .createOp th et body now => (create_entity th et body now st).2
  | .updateOp th et eid body now => (update_entity th et eid body now st).2
  | .deleteOp th et eid => (delete_entity th et eid st).2

/-- The store after a sequence of handler calls. -/
def applyOps (st : Store) (ops : List Op) : Store := ops.foldl applyOp st

/-- Operations that never delete and never smuggle an `id` field through a
create body. -/
def creationSafe : Op → Prop
  | .createOp _ _ none _ => True
  | .createOp _ _ (some data) _ => dget data "id" = none
  | .updateOp _ _ _ _ _ => True
  | .deleteOp _ _ _ => False

/-- Position-determined ids: the record at index `j` carries id
`str(j + 1)`.  This is the shape `create` produces and `update`
preserves. -/
def posIds (c : List EntityRec) : Prop :=
  ∀ j (h : j < c.length),
    dget (c.get ⟨j, h⟩) "id" = some (.s (toString (j + 1)))

/-- Every collection of the store has position-determined ids. -/
def storeInv (st : Store) : Prop := ∀ th et, posIds (st th et)

/-- Pairwise-distinct ids in a collection. -/
def distinctIds (c : List EntityRec) : Prop :=
  ∀ j k (hj : j < c.length) (hk : k < c.length), j ≠ k →
    dget (c.get ⟨j, hj⟩) "id" ≠ dget (c.get ⟨k, hk⟩) "id"

theorem posIds_distinctIds {c : List EntityRec} (h : posIds c) :
    distinctIds c := by
  intro j k hj hk hne heq
  rw [h j hj, h k hk] at heq
  have h1 : Val.s (toString (j + 1)) = Val.s (toString (k + 1)) :=
    Option.some.inj heq
  have h2 : toString (j + 1) = toString (k + 1) := by
    injection h1
  have h3 := natToString_injective h2
  omega

theorem posIds_fresh {c : List EntityRec} (h : posIds c) (r : EntityRec)
    (hr : r ∈ c) : dget r "id" ≠ some (.s (toString (c.length + 1))) := by
  obtain ⟨j, hj⟩ := List.mem_iff_get.mp hr
  intro hcontra
  rw [← hj] at hcontra
  rw [h j.1 j.2] at hcontra
  have h1 : Val.s (toString (j.1 + 1)) = Val.s (toString (c.length + 1)) :=
    Option.some.inj hcontra
  have h2 : toString (j.1 + 1) = toString (c.length + 1) := by
    injection h1
  have h3 := natToString_injective h2
  have := j.2
  omega

theorem dget_create_id (data : EntityRec) (x : String) (v : Val)
    (hid : dget data "id" = none) :
    dget (dinsert (dmerge [("id", .s x)] data) "created_at" v) "id" =
      some (.s x) := by
  rw [dget_dinsert, if_neg (by decide), dget_dmerge,
    dget_reverse_eq_none data "id" hid]
  rfl

theorem dget_create_created_at (data : EntityRec) (x : String) (v : Val) :
    dget (dinsert (dmerge [("id", .s x)] data) "created_at" v)
      "created_at" = some v := by
  rw [dget_dinsert, if_pos rfl]

theorem dget_create_other (data : EntityRec) (x : String) (v : Val)
    (k : String) (hk1 : k ≠ "id") (hk2 : k ≠ "created_at")
    (hnd : (keys data).Nodup) :
    dget (dinsert (dmerge [("id", .s x)] data) "created_at" v) k =
      dget data k := by
  rw [dget_dinsert, if_neg hk2, dget_dmerge, dget_reverse_of_nodup data k hnd]
  have hk1s : ¬ "id" = k := fun hh => hk1 hh.symm
  cases hv : dget data k with
  | some w => rfl
  | none => simp [oalt, dget, hk1s]

theorem dget_updateRecord_id (entity data : EntityRec) (eid now : String) :
    dget (updateRecord entity data eid now) "id" = some (.s eid) := by
  rw [updateRecord, dget_dinsert, if_neg (by decide), dget_dinsert,
    if_neg (by decide), dget_dinsert, if_pos rfl]

theorem dget_updateRecord_created_at (entity data : EntityRec)
    (eid now : String) :
    dget (updateRecord entity data eid now) "created_at" =
      some ((dget entity "created_at").getD (.s "")) := by
  rw [updateRecord, dget_dinsert, if_neg (by decide), dget_dinsert,
    if_pos rfl]

theorem dget_updateRecord_updated_at (entity data : EntityRec)
    (eid now : String) :
    dget (updateRecord entity data eid now) "updated_at" = some (.s now) := by
  rw [updateRecord, dget_dinsert, if_pos rfl]

theorem dget_updateRecord_other (entity data : EntityRec) (eid now k : String)
    (hk1 : k ≠ "id") (hk2 : k ≠ "created_at") (hk3 : k ≠ "updated_at")
    (hnd : (keys data).Nodup) :
    dget (updateRecord entity data eid now) k =
      oalt (dget data k) (dget entity k) := by
  rw [updateRecord, dget_dinsert, if_neg hk3, dget_dinsert, if_neg hk2,
    dget_dinsert, if_neg hk1, dget_dmerge, dget_reverse_of_nodup data k hnd]

theorem findIdx_isLt {c : List EntityRec} {eid : String} {i : Nat}
    (h : findIdx c eid = some i) : i < c.length := by
  induction c generalizing i with
  | nil => simp [findIdx] at h
  | cons r t ih =>
    rw [findIdx] at h
    by_cases hr : dget r "id" = some (.s eid)
    · rw [if_pos hr] at h
      injection h with h0
      simp [← h0]
    · rw [if_neg hr] at h
      cases hidx : findIdx t eid with
      | none =>
        rw [hidx] at h
        exact absurd h (by simp)
      | some i0 =>
        rw [hidx] at h
        have h0 : i0 + 1 = i := by
          have h1 : (some (i0 + 1) : Option Nat) = some i := h
          injection h1
        have := ih hidx
        simp only [List.length_cons]
        omega

theorem findIdx_spec {c : List EntityRec} {eid : String} {i : Nat}
    (h : findIdx c eid = some i) (hlt : i < c.length) :
    dget (c.get ⟨i, hlt⟩) "id" = some (.s eid) := by
  induction c generalizing i with
  | nil => simp [findIdx] at h
  | cons r t ih =>
    rw [findIdx] at h
    by_cases hr : dget r "id" = some (.s eid)
    · rw [if_pos hr] at h
      injection h with h0
      subst h0
      simpa using hr
    · rw [if_neg hr] at h
      cases hidx : findIdx t eid with
      | none =>
        rw [hidx] at h
        exact absurd h (by simp)
      | some i0 =>
        rw [hidx] at h
        have h0 : i0 + 1 = i := by
          have h1 : (some (i0 + 1) : Option Nat) = some i := h
          injection h1
        subst h0
        have hlt0 : i0 < t.length := findIdx_isLt hidx
        simpa using ih hidx hlt0

theorem posIds_append_one {c : List EntityRec} {x : EntityRec}
    (h : posIds c) (hx : dget x "id" = some (.s (toString (c.length + 1)))) :
    posIds (c ++ [x]) := by
  intro j hj
  have hlen : (c ++ [x]).length = c.length + 1 := by simp
  by_cases hlt : j < c.length
  · have hget : (c ++ [x]).get ⟨j, hj⟩ = c.get ⟨j, hlt⟩ := by
      simp [List.get_eq_getElem, List.getElem_append_left hlt]
    rw [hget]
    exact h j hlt
  · have hj' : j = c.length := by
      rw [hlen] at hj
      omega
    subst hj'
    have hget : (c ++ [x]).get ⟨c.length, hj⟩ = x := by
      simp [List.get_eq_getElem]
    rw [hget]
    exact hx

theorem posIds_set {c : List EntityRec} {x : EntityRec} {i : Nat}
    (h : posIds c) (hi : i < c.length)
    (hx : dget x "id" = some (.s (toString (i + 1)))) :
    posIds (c.set i x) := by
  intro j hj
  have hj' : j < c.length := by
    simpa using hj
  by_cases hji : j = i
  · subst hji
    have hget : (c.set j x).get ⟨j, hj⟩ = x := by
      simp [List.get_eq_getElem, List.getElem_set_self]
    rw [hget]
    exact hx
  · have hget : (c.set i x).get ⟨j, hj⟩ = c.get ⟨j, hj'⟩ := by
      simp [List.get_eq_getElem, List.getElem_set_ne (fun hh => hji hh.symm)]
    rw [hget]
    exact h j hj'

theorem storeInv_setCol {st : Store} {th et : String} {c : List EntityRec}
    (hst : storeInv st) (hc : posIds c) : storeInv (setCol st th et c) := by
  intro t e
  unfold setCol
  by_cases h : t = th ∧ e = et
  · simp only [if_pos h]
    exact hc
  · simp only [if_neg h]
    exact hst t e

theorem storeInv_applyOp {st : Store} {op : Op} (hst : storeInv st)
    (hop : creationSafe op) : storeInv (applyOp st op) := by
  cases op with
  | createOp th et body now =>
    simp only [applyOp]
    cases hth : findTheme th with
    | none =>
      simp only [create_entity, hth]
      exact hst
    | some info =>
      by_cases het : et ∈ info.entities
      · cases body with
        | none =>
          simp only [create_entity, hth, if_pos het]
          exact hst
        | some data =>
          have hid : dget data "id" = none := hop
          by_cases hdat : data = []
          · simp only [create_entity, hth, if_pos het, if_pos hdat]
            exact hst
          · by_cases hreq : required_fields.all
                (fun f => (keys data).contains f) = true
            · simp only [create_entity, hth, if_pos het, if_neg hdat,
                if_pos hreq]
              exact storeInv_setCol hst
                (posIds_append_one (hst th et) (dget_create_id data _ _ hid))
            · simp only [create_entity, hth, if_pos het, if_neg hdat,
                if_neg hreq]
              exact hst
      · simp only [create_entity, hth, if_neg het]
        exact hst
  | updateOp th et eid body now =>
    simp only [applyOp]
    cases hth : findTheme th with
    | none =>
      simp only [update_entity, hth]
      exact hst
    | some info =>
      by_cases het : et ∈ info.entities
      · cases body with
        | none =>
          simp only [update_entity, hth, if_pos het]
          exact hst
        | some data =>
          by_cases hdat : data = []
          · simp only [update_entity, hth, if_pos het, if_pos hdat]
            exact hst
          · cases hidx : findIdx (st th et) eid with
            | none =>
              simp only [update_entity, hth, if_pos het, if_neg hdat, hidx]
              exact hst
            | some i =>
              simp only [update_entity, hth, if_pos het, if_neg hdat, hidx]
              have hlt : i < (st th et).length := findIdx_isLt hidx
              have hid : dget ((st th et).get ⟨i, hlt⟩) "id" =
                  some (.s eid) := findIdx_spec hidx hlt
              have hpos := hst th et i hlt
              rw [hpos] at hid
              have heid : eid = toString (i + 1) := by
                have h1 : Val.s (toString (i + 1)) = Val.s eid :=
                  Option.some.inj hid
                injection h1 with h2
                exact h2.symm
              refine storeInv_setCol hst (posIds_set (hst th et) hlt ?_)
              rw [dget_updateRecord_id, heid]
      · simp only [update_entity, hth, if_neg het]
        exact hst
  | deleteOp th et eid =>
    exact False.elim hop

theorem storeInv_applyOps {st : Store} {ops : List Op} (hst : storeInv st)
    (hops : ∀ op ∈ ops, creationSafe op) : storeInv (applyOps st ops) := by
  induction ops generalizing st with
  | nil => exact hst
  | cons op t ih =>
    have hstep : applyOps st (op :: t) = applyOps (applyOp st op) t := rfl
    rw [hstep]
    exact ih (storeInv_applyOp hst (hops op (by simp)))
      (fun o ho => hops o (by simp [ho]))

theorem storeInv_data_store : storeInv data_store := by
  intro th et j hj
  simp [data_store] at hj

theorem storeInv_seeded_store : storeInv seeded_store := by
  intro th et
  unfold seeded_store
  split_ifs <;> intro j hj <;> simp at hj
  all_goals first
    | (subst hj; rfl)
    | (interval_cases j <;> rfl)

/-! ### Pipeline helper lemmas -/

theorem runProtected_noToken {rate r u d : ℚ} {h : Store → EResult × Store}
    {st : Store} :
    runProtected rate r u d none h st = (.err 401 "API token is missing", st) :=
  rfl

theorem runProtected_emptyToken {rate r u d : ℚ}
    {h : Store → EResult × Store} {st : Store} :
    runProtected rate r u d (some "") h st =
      (.err 401 "API token is missing", st) := rfl

theorem runProtected_badToken {rate r u d : ℚ} {h : Store → EResult × Store}
    {st : Store} {t : String} (h1 : t ≠ "") (h2 : t ≠ "student_test_token") :
    runProtected rate r u d (some t) h st =
      (.err 403 "Invalid API token", st) := by
  have ht : token_required (some t) = .invalidToken := by
    simp only [token_required, if_neg h1, if_pos h2]
  unfold runProtected
  rw [ht]

theorem runProtected_goodToken {rate r u d : ℚ}
    {h : Store → EResult × Store} {st : Store} :
    runProtected rate r u d (some "student_test_token") h st =
      runFault rate r u d h st := rfl

theorem simulate_errors_pass {rate r u d : ℚ} (hr : rate ≤ r) :
    simulate_errors rate r u d = .pass := by
  unfold simulate_errors
  rw [if_neg (not_lt.mpr hr)]

theorem runFault_pass {rate r u d : ℚ} {h : Store → EResult × Store}
    {st : Store} (hr : rate ≤ r) : runFault rate r u d h st = h st := by
  unfold runFault
  rw [simulate_errors_pass hr]

/-- The five entity-endpoint response statuses for one set of request
inputs, in route order. -/
def endpointStatuses (rate r u d : ℚ) (token : Option String)
    (th et eid : String) (body : Option EntityRec) (now : String)
    (st : Store) : List Nat :=
  [(listEndpoint rate r u d token th et st).1.status,
   (createEndpoint rate r u d token th et body now st).1.status,
   (getEndpoint rate r u d token th et eid st).1.status,
   (updateEndpoint rate r u d token th et eid body now st).1.status,
   (deleteEndpoint rate r u d token th et eid st).1.status]

/-! ### Claim C1 -/

/-- Claim C1 counterexample: a request to the list endpoint with a missing
token and an unknown theme receives 401 (the auth gate runs before the
theme validation), not the 404 the claim requires. -/
theorem C1_counterexample :
    (listEndpoint (1/5) (1/2) 0 1 none "unknown_theme" "missions"
        data_store).1 = .err 401 "API token is missing" ∧
    findTheme "unknown_theme" = none ∧ (401 : Nat) ≠ 404 :=
  ⟨rfl, rfl, by decide⟩

/-- Claim C1 (amended): on every entity endpoint the Auth Gate is
consulted before the theme and entity-type validation.  A request with a
missing token receives 401 and one with a non-empty invalid token receives
403, regardless of the theme; only once the token is correct (and the
fault injector passes, here because `rate ≤ r`) does an unknown theme
yield 404. -/
theorem C1_auth_before_validation (rate r u d : ℚ) (token : Option String)
    (th et eid : String) (body : Option EntityRec) (now : String)
    (st : Store) (s : Nat)
    (hs : s ∈ endpointStatuses rate r u d token th et eid body now st) :
    (token = none → s = 401) ∧
    (∀ t, token = some t → t ≠ "" → t ≠ "student_test_token" → s = 403) ∧
    (token = some "student_test_token" → rate ≤ r → findTheme th = none →
      s = 404) := by
  simp only [endpointStatuses, List.mem_cons, List.not_mem_nil,
    or_false] at hs
  refine ⟨?_, ?_, ?_⟩
  · rintro rfl
    rcases hs with rfl | rfl | rfl | rfl | rfl <;> rfl
  · rintro t rfl h1 h2
    rcases hs with rfl | rfl | rfl | rfl | rfl <;>
      simp [listEndpoint, createEndpoint, getEndpoint, updateEndpoint,
        deleteEndpoint, runProtected_badToken h1 h2, EResult.status]
  · rintro rfl hr hth
    rcases hs with rfl | rfl | rfl | rfl | rfl <;>
      simp [listEndpoint, createEndpoint, getEndpoint, updateEndpoint,
        deleteEndpoint, runProtected_goodToken, runFault_pass hr,
        list_entities, create_entity, get_entity, update_entity,
        delete_entity, hth, EResult.status]

/-- Witness for C1: the concrete request of the counterexample, through
the amended theorem. -/
theorem C1_auth_before_validation_witness :
    (listEndpoint (1/5) (1/2) 0 1 none "unknown_theme" "missions"
        data_store).1.status = 401 :=
  (C1_auth_before_validation (1/5) (1/2) 0 1 none "unknown_theme" "missions"
    "1" none "t" data_store _ (by simp [endpointStatuses])).1 rfl

/-! ### Claim C6 -/

/-- Claim C6 counterexample: a request supplying the empty-string token —
a token that does not equal the configured secret — receives 401, not the
403 the claim requires, because `if not token` in Python also treats an
empty header value as missing. -/
theorem C6_counterexample :
    (listEndpoint (1/5) 1 0 1 (some "") "space_exploration" "missions"
        data_store).1 = .err 401 "API token is missing" ∧
    ("" : String) ≠ "student_test_token" ∧ (401 : Nat) ≠ 403 :=
  ⟨rfl, by decide, by decide⟩

/-- Claim C6 (amended): on any protected route, a missing or empty token
yields 401; a non-empty token different from the secret yields 403; with
the correct token the auth gate never rejects — the pipeline behaves
exactly as the fault-injector stage alone. -/
theorem C6_auth_gate (rate r u d : ℚ) (h : Store → EResult × Store)
    (st : Store) :
    runProtected rate r u d none h st =
      (.err 401 "API token is missing", st) ∧
    runProtected rate r u d (some "") h st =
      (.err 401 "API token is missing", st) ∧
    (∀ t, t ≠ "" → t ≠ "student_test_token" →
      runProtected rate r u d (some t) h st =
        (.err 403 "Invalid API token", st)) ∧
    runProtected rate r u d (some "student_test_token") h st =
      runFault rate r u d h st :=
  ⟨rfl, rfl, fun _ h1 h2 => runProtected_badToken h1 h2, rfl⟩

/-- Witness for C6: a concrete wrong token on the list handler. -/
theorem C6_auth_gate_witness :
    runProtected 0 0 0 0 (some "wrong")
        (list_entities "space_exploration" "missions") data_store =
      (.err 403 "Invalid API token", data_store) :=
  (C6_auth_gate 0 0 0 0 (list_entities "space_exploration" "missions")
    data_store).2.2.1 "wrong" (by decide) (by decide)

/-! ### Claim C7 -/

theorem chooseFault_eval (u : ℚ) :
    chooseFault u =
      if u < 1/10 then "timeout"
      else if u - 1/10 < 3/20 then "rate_limit"
      else if u - 1/10 - 3/20 < 1/10 then "server_error"
      else "validation_error" := by
  simp [chooseFault, ERROR_TYPES, weightedChoice]

theorem chooseFault_timeout {u : ℚ} (h : u < 1/10) :
    chooseFault u = "timeout" := by
  rw [chooseFault_eval, if_pos h]

theorem chooseFault_rateLimit {u : ℚ} (h1 : 1/10 ≤ u) (h2 : u < 1/4) :
    chooseFault u = "rate_limit" := by
  rw [chooseFault_eval, if_neg (by linarith), if_pos (by linarith)]

theorem chooseFault_serverError {u : ℚ} (h1 : 1/4 ≤ u) (h2 : u < 7/20) :
    chooseFault u = "server_error" := by
  rw [chooseFault_eval, if_neg (by linarith), if_neg (by linarith),
    if_pos (by linarith)]

theorem chooseFault_validationError {u : ℚ} (h1 : 7/20 ≤ u) :
    chooseFault u = "validation_error" := by
  rw [chooseFault_eval, if_neg (by linarith), if_neg (by linarith),
    if_neg (by linarith)]

/-- Claim C7 (confirmed): modelled as a function of the drawn random
values, the fault injector passes the request through unchanged when
`r ≥ errorRate`; otherwise the scaled weighted-choice draw `u` selects the
kind by the cumulative `ERROR_TYPES` weights (interval widths 0.1, 0.15,
0.1, 0.2 out of `totalWeight = 0.55`), and each kind produces exactly the
listed outcome: a delay for `timeout`, and the three rejections with their
statuses and messages. -/
theorem C7_fault_injector (rate r u d : ℚ) :
    (rate ≤ r → simulate_errors rate r u d = .pass) ∧
    (r < rate →
      ((u < 1/10 → simulate_errors rate r u d = .delayPass d) ∧
       (1/10 ≤ u → u < 1/10 + 3/20 →
         simulate_errors rate r u d =
           .reject 429 "Rate limit exceeded. Try again later.") ∧
       (1/10 + 3/20 ≤ u → u < 1/10 + 3/20 + 1/10 →
         simulate_errors rate r u d =
           .reject 500 "Internal server error occurred") ∧
       (1/10 + 3/20 + 1/10 ≤ u → u < totalWeight →
         simulate_errors rate r u d =
           .reject 422 "Invalid data format or content"))) ∧
    totalWeight = 1/10 + 3/20 + 1/10 + 1/5 := by
  have htot : totalWeight = 1/10 + 3/20 + 1/10 + 1/5 := by
    norm_num [totalWeight, ERROR_TYPES]
  refine ⟨simulate_errors_pass, fun hr => ⟨?_, ?_, ?_, ?_⟩, htot⟩
  · intro h1
    have hc : chooseFault u = "timeout" := chooseFault_timeout h1
    simp [simulate_errors, if_pos hr, hc]
  · intro h1 h2
    have hc : chooseFault u = "rate_limit" :=
      chooseFault_rateLimit (by linarith) (by linarith)
    simp [simulate_errors, if_pos hr, hc]
  · intro h1 h2
    have hc : chooseFault u = "server_error" :=
      chooseFault_serverError (by linarith) (by linarith)
    simp [simulate_errors, if_pos hr, hc]
  · intro h1 h2
    have hc : chooseFault u = "validation_error" :=
      chooseFault_validationError (by linarith)
    simp [simulate_errors, if_pos hr, hc]

/-- Witness for C7: with `errorRate = 0.2`, first draw `0.1 < 0.2` and
scaled choice draw `0.3`, the injector rejects with 500. -/
theorem C7_fault_injector_witness :
    simulate_errors (1/5) (1/10) (3/10) 2 =
      .reject 500 "Internal server error occurred" :=
  ((C7_fault_injector (1/5) (1/10) (3/10) 2).2.1 (by norm_num)).2.2.1
    (by norm_num) (by norm_num)

/-! ### Claim C8 -/

/-- Claim C8 (confirmed): the `/error-test` endpoint is a function of the
`type` query parameter alone (it takes no random draws, so it never
consults the fault injector's probability model), and each recognised kind
deterministically yields its fixed response; an absent or unrecognised
kind yields 200 with the catalog. -/
theorem C8_error_test :
    test_errors (some "timeout") = ⟨3, 200, .msg "Response after timeout"⟩ ∧
    test_errors (some "rate_limit") =
      ⟨0, 429, .msg "Rate limit exceeded. Try again later."⟩ ∧
    test_errors (some "server_error") =
      ⟨0, 500, .msg "Internal server error occurred"⟩ ∧
    test_errors (some "validation_error") =
      ⟨0, 422, .msg "Invalid data format or content"⟩ ∧
    test_errors none = ⟨0, 200, .catalog available_errors⟩ ∧
    (∀ t, (ERROR_TYPES.map (fun p => p.1)).contains t = false →
      test_errors (some t) = ⟨0, 200, .catalog available_errors⟩) := by
  refine ⟨rfl, rfl, rfl, rfl, rfl, fun t ht => ?_⟩
  simp only [test_errors]
  rw [if_pos (Or.inr (by rw [ht]; exact Bool.false_ne_true))]

/-- Witness for C8: an unrecognised kind gets the catalog. -/
theorem C8_error_test_witness :
    test_errors (some "bogus") = ⟨0, 200, .catalog available_errors⟩ :=
  C8_error_test.2.2.2.2.2 "bogus" (by decide)

/-! ### Claim C2 -/

/-- The operation trace of the C2 counterexample: three creates, a delete
of id "2", then another create, all on one collection. -/
def dupTraceOps : List Op :=
  [.createOp "fantasy_rpg" "characters"
    (some [("name", .s "A"), ("description", .s "B")]) "t1",
   .createOp "fantasy_rpg" "characters"
    (some [("name", .s "A"), ("description", .s "B")]) "t2",
   .createOp "fantasy_rpg" "characters"
    (some [("name", .s "A"), ("description", .s "B")]) "t3",
   .deleteOp "fantasy_rpg" "characters" "2",
   .createOp "fantasy_rpg" "characters"
    (some [("name", .s "A"), ("description", .s "B")]) "t4"]

/-- Claim C2 counterexample: starting from the initial (empty) store,
create/create/create/delete-"2"/create leaves the collection with ids
`["1", "3", "3"]` — two distinct records share the id "3", because create
derives the id from the current collection length, which shrank after the
delete. -/
theorem C2_counterexample :
    ((applyOps data_store dupTraceOps) "fantasy_rpg" "characters").map
        (fun r => dget r "id") =
      [some (.s "1"), some (.s "3"), some (.s "3")] ∧
    ¬ distinctIds ((applyOps data_store dupTraceOps) "fantasy_rpg"
        "characters") := by
  refine ⟨rfl, fun hd => ?_⟩
  exact hd 1 2 (by decide) (by decide) (by decide) rfl

/-- The id of a successfully created record, when the caller body carries
no `id` field. -/
theorem create_ok_id {th et : String} {data : EntityRec} {now : String}
    {st : Store} {r : EntityRec} {st2 : Store}
    (hid : dget data "id" = none)
    (h : create_entity th et (some data) now st = (.ok 201 (.record r), st2)) :
    dget r "id" = some (.s (toString ((st th et).length + 1))) := by
  cases hth : findTheme th with
  | none =>
    simp only [create_entity, hth] at h
    simp at h
  | some info =>
    simp only [create_entity, hth] at h
    by_cases het : et ∈ info.entities
    · rw [if_pos het] at h
      by_cases hdat : data = []
      · rw [if_pos hdat] at h
        simp at h
      · rw [if_neg hdat] at h
        by_cases hreq : required_fields.all
            (fun f => (keys data).contains f) = true
        · rw [if_pos hreq] at h
          simp only [Prod.mk.injEq, EResult.ok.injEq, RBody.record.injEq,
            true_and] at h
          rw [← h.1]
          exact dget_create_id data _ _ hid
        · rw [if_neg hreq] at h
          simp at h
    · rw [if_neg het] at h
      simp at h

/-- Claim C2 (amended): id uniqueness holds on every store reachable from
the initial or the seeded store by create and update operations — no
deletes, and no create whose body smuggles in an `id` field (either breaks
it, as the counterexample and the C3 counterexample show).  Under the same
restriction, create always returns a record whose id is unique among the
collection's members at the moment of creation. -/
theorem C2_unique_ids (st0 : Store) (ops : List Op) (th et : String)
    (h0 : st0 = data_store ∨ st0 = seeded_store)
    (hops : ∀ op ∈ ops, creationSafe op) :
    distinctIds (applyOps st0 ops th et) ∧
    (∀ data now r st2, dget data "id" = none →
      create_entity th et (some data) now (applyOps st0 ops) =
        (.ok 201 (.record r), st2) →
      ∀ q ∈ applyOps st0 ops th et, dget q "id" ≠ dget r "id") := by
  have hinv : storeInv (applyOps st0 ops) := by
    rcases h0 with rfl | rfl
    · exact storeInv_applyOps storeInv_data_store hops
    · exact storeInv_applyOps storeInv_seeded_store hops
  refine ⟨posIds_distinctIds (hinv th et), ?_⟩
  intro data now r st2 hid hcr q hq
  rw [create_ok_id hid hcr]
  exact posIds_fresh (hinv th et) q hq

/-- Witness for C2: one safe create on the seeded store keeps the
fantasy-rpg characters collection duplicate-free. -/
theorem C2_unique_ids_witness :
    distinctIds (applyOps seeded_store
      [.createOp "fantasy_rpg" "characters"
        (some [("name", .s "A"), ("description", .s "B")]) "t"]
      "fantasy_rpg" "characters") :=
  (C2_unique_ids seeded_store
    [.createOp "fantasy_rpg" "characters"
      (some [("name", .s "A"), ("description", .s "B")]) "t"]
    "fantasy_rpg" "characters" (Or.inr rfl)
    (by simp [creationSafe, dget])).1

/-! ### Claim C3 -/

/-- Claim C3 counterexample: a create whose body carries an `id` field
stores that id — "999" — instead of `str(len(collection) + 1) = "1"`: in
the dict literal the caller fields are spliced after the computed id, so
they override it. -/
theorem C3_counterexample :
    (create_entity "fantasy_rpg" "characters"
        (some [("name", .s "A"), ("description", .s "B"),
               ("id", .s "999")]) "t" data_store).1 =
      .ok 201 (.record [("id", .s "999"), ("name", .s "A"),
        ("description", .s "B"), ("created_at", .s "t")]) ∧
    dget [("id", Val.s "999"), ("name", Val.s "A"),
        ("description", Val.s "B"), ("created_at", Val.s "t")] "id" ≠
      some (.s (toString
        ((data_store "fantasy_rpg" "characters").length + 1))) :=
  ⟨rfl, by decide⟩

/-- Claim C3 (amended): a create on a validated pair with a well-formed
body containing the required fields stores and returns a record appended
at the end of the collection whose `id` is `str(len + 1)` **provided the
caller supplies no `id` field** (a caller-supplied `id` overrides the
computed one), whose `created_at` is the current timestamp even if the
caller supplies one, and whose other fields are the caller fields. -/
theorem C3_create (th et : String) (info : ThemeInfo) (data : EntityRec)
    (now : String) (st : Store)
    (hth : findTheme th = some info) (het : et ∈ info.entities)
    (hne : data ≠ [])
    (hreq : required_fields.all (fun f => (keys data).contains f) = true)
    (hid : dget data "id" = none) (hnd : (keys data).Nodup) :
    ∃ r, create_entity th et (some data) now st =
        (.ok 201 (.record r), setCol st th et (st th et ++ [r])) ∧
      dget r "id" = some (.s (toString ((st th et).length + 1))) ∧
      dget r "created_at" = some (.s now) ∧
      (∀ k, k ≠ "id" → k ≠ "created_at" → dget r k = dget data k) := by
  refine ⟨dinsert (dmerge [("id", .s (toString ((st th et).length + 1)))]
    data) "created_at" (.s now), ?_, ?_, ?_, ?_⟩
  · simp only [create_entity, hth, if_pos het, if_neg hne, if_pos hreq]
  · exact dget_create_id data _ _ hid
  · exact dget_create_created_at data _ _
  · intro k h1 h2
    exact dget_create_other data _ _ k h1 h2 hnd

/-- Witness for C3: a concrete create on the seeded missions collection. -/
theorem C3_create_witness :
    ∃ r, create_entity "space_exploration" "missions"
        (some [("name", .s "N"), ("description", .s "D")]) "t"
        seeded_store =
        (.ok 201 (.record r), setCol seeded_store "space_exploration"
          "missions" (seeded_store "space_exploration" "missions" ++ [r])) ∧
      dget r "id" = some (.s (toString
        ((seeded_store "space_exploration" "missions").length + 1))) ∧
      dget r "created_at" = some (.s "t") ∧
      (∀ k, k ≠ "id" → k ≠ "created_at" →
        dget r k = dget [("name", .s "N"), ("description", .s "D")] k) :=
  C3_create "space_exploration" "missions"
    ⟨"Space Exploration API",
     "API for managing space missions and astronaut data",
     ["missions", "astronauts", "spacecraft"]⟩
    [("name", .s "N"), ("description", .s "D")] "t" seeded_store
    rfl (by decide) (by decide) (by decide) (by decide) (by decide)

/-! ### Claim C4 -/

theorem getD_of_lt {l : List EntityRec} {i : Nat} (h : i < l.length) :
    l.getD i [] = l.get ⟨i, h⟩ := by
  simp [List.getD_eq_getElem?_getD, List.getElem?_eq_getElem h,
    List.get_eq_getElem]

/-- Number of records in a collection carrying the given id. -/
def matchCount (c : List EntityRec) (eid : String) : Nat :=
  c.countP (fun r => dget r "id" == some (.s eid))

theorem findRec_eq_none {c : List EntityRec} {eid : String}
    (h : ∀ r ∈ c, ¬ dget r "id" = some (.s eid)) : findRec c eid = none := by
  induction c with
  | nil => rfl
  | cons r t ih =>
    rw [findRec, if_neg (h r (by simp))]
    exact ih (fun q hq => h q (by simp [hq]))

theorem setCol_same (st : Store) (th et : String) (c : List EntityRec) :
    setCol st th et c th et = c := by
  simp [setCol]

/-- Claim C4 counterexample: on the (reachable) duplicate-id collection of
the C2 counterexample, deleting id "3" removes only the first matching
record, and an immediate get on the same id returns the surviving record
with 200 — not the 404 the claim requires. -/
theorem C4_counterexample :
    (get_entity "fantasy_rpg" "characters" "3"
        (delete_entity "fantasy_rpg" "characters" "3"
          (applyOps data_store dupTraceOps)).2).1 =
      .ok 200 (.record [("id", .s "3"), ("name", .s "A"),
        ("description", .s "B"), ("created_at", .s "t4")]) ∧
    (get_entity "fantasy_rpg" "characters" "3"
        (delete_entity "fantasy_rpg" "characters" "3"
          (applyOps data_store dupTraceOps)).2).1.status ≠ 404 := by
  refine ⟨rfl, ?_⟩
  decide

/-- Claim C4 (amended): when the requested id occurs in the collection,
delete removes exactly one record — the collection shrinks by exactly one
and equals the original with the first matching position cut out, so all
other records keep their relative order.  A get on the same id straight
after the delete returns 404 **provided the id occurred in exactly one
record** (with duplicated ids, only the first occurrence is removed and
the get finds a survivor). -/
theorem C4_delete_then_get (th et eid : String) (info : ThemeInfo)
    (st : Store) (i : Nat)
    (hth : findTheme th = some info) (het : et ∈ info.entities)
    (hidx : findIdx (st th et) eid = some i) :
    delete_entity th et eid st =
      (.ok 200 (.deleted
        ("Entity \x27" ++ eid ++ "\x27 deleted successfully")
        ((st th et).getD i [])),
       setCol st th et ((st th et).eraseIdx i)) ∧
    ((st th et).eraseIdx i).length + 1 = (st th et).length ∧
    (st th et).eraseIdx i = (st th et).take i ++ (st th et).drop (i + 1) ∧
    (matchCount (st th et) eid = 1 →
      (get_entity th et eid (setCol st th et ((st th et).eraseIdx i))).1 =
        .err 404 (entityNotFoundMsg eid)) := by
  have hlt : i < (st th et).length := findIdx_isLt hidx
  have herase : (st th et).eraseIdx i =
      (st th et).take i ++ (st th et).drop (i + 1) :=
    List.eraseIdx_eq_take_drop_succ _ _
  refine ⟨?_, ?_, herase, ?_⟩
  · simp only [delete_entity, hth, if_pos het, hidx]
  · rw [herase]
    simp only [List.length_append, List.length_take, List.length_drop]
    omega
  · intro hone
    have hpred : dget ((st th et).get ⟨i, hlt⟩) "id" = some (.s eid) :=
      findIdx_spec hidx hlt
    have hsplit : st th et =
        (st th et).take i ++
          (st th et).get ⟨i, hlt⟩ :: (st th et).drop (i + 1) := by
      conv_lhs => rw [← List.take_append_drop i (st th et)]
      rw [List.drop_eq_getElem_cons hlt]
      simp [List.get_eq_getElem]
    have hzero : ((st th et).take i).countP
          (fun r => dget r "id" == some (.s eid)) = 0 ∧
        ((st th et).drop (i + 1)).countP
          (fun r => dget r "id" == some (.s eid)) = 0 := by
      have hb : (dget ((st th et).get ⟨i, hlt⟩) "id" ==
          some (Val.s eid)) = true := beq_iff_eq.mpr hpred
      have h1 : matchCount (st th et) eid =
          ((st th et).take i).countP
            (fun r => dget r "id" == some (.s eid)) +
          (1 + ((st th et).drop (i + 1)).countP
            (fun r => dget r "id" == some (.s eid))) := by
        unfold matchCount
        conv_lhs => rw [hsplit]
        simp only [List.countP_append, List.countP_cons, hb, if_true]
        omega
      rw [hone] at h1
      omega
    have hnomatch : ∀ q ∈ (st th et).eraseIdx i,
        ¬ dget q "id" = some (.s eid) := by
      intro q hq heq
      rw [herase, List.mem_append] at hq
      rcases hq with hq | hq
      · have := (List.countP_eq_zero.mp hzero.1) q hq
        simp [heq] at this
      · have := (List.countP_eq_zero.mp hzero.2) q hq
        simp [heq] at this
    have hfr : findRec ((st th et).eraseIdx i) eid = none :=
      findRec_eq_none hnomatch
    simp only [get_entity, hth, if_pos het, setCol_same, hfr]

/-- Witness for C4: deleting the only record with id "1" from the seeded
characters collection, then getting it, yields 404. -/
theorem C4_delete_then_get_witness :
    (get_entity "fantasy_rpg" "characters" "1"
        (setCol seeded_store "fantasy_rpg" "characters"
          ((seeded_store "fantasy_rpg" "characters").eraseIdx 0))).1 =
      .err 404 (entityNotFoundMsg "1") :=
  (C4_delete_then_get "fantasy_rpg" "characters" "1"
    ⟨"Fantasy RPG API",
     "API for managing characters, quests and items in a fantasy world",
     ["characters", "quests", "items"]⟩
    seeded_store 0 rfl (by decide) rfl).2.2.2 (by decide)

/-! ### Claim C5 -/

/-- Claim C5 (confirmed): a successful update — the requested id is found
at position `i` and the body is a parsed non-empty object — stores and
returns a record that keeps the original `id` and `created_at`, gets
`updated_at := now`, replaces the old record at the same position `i`, and
keeps every other existing field unless the caller body overwrites it;
this holds whatever the caller supplies for `id`, `created_at` or
`updated_at`. -/
theorem C5_update (th et eid : String) (info : ThemeInfo) (data : EntityRec)
    (now : String) (st : Store) (i : Nat) (c : Val)
    (hth : findTheme th = some info) (het : et ∈ info.entities)
    (hne : data ≠ []) (hnd : (keys data).Nodup)
    (hidx : findIdx (st th et) eid = some i)
    (hca : dget ((st th et).getD i []) "created_at" = some c) :
    ∃ updated, update_entity th et eid (some data) now st =
        (.ok 200 (.record updated),
         setCol st th et ((st th et).set i updated)) ∧
      dget updated "id" = dget ((st th et).getD i []) "id" ∧
      dget updated "created_at" = some c ∧
      dget updated "updated_at" = some (.s now) ∧
      (∀ k, k ≠ "id" → k ≠ "created_at" → k ≠ "updated_at" →
        dget updated k =
          oalt (dget data k) (dget ((st th et).getD i []) k)) := by
  have hlt : i < (st th et).length := findIdx_isLt hidx
  have hid : dget ((st th et).getD i []) "id" = some (.s eid) := by
    rw [getD_of_lt hlt]
    exact findIdx_spec hidx hlt
  refine ⟨updateRecord ((st th et).getD i []) data eid now, ?_, ?_, ?_, ?_, ?_⟩
  · simp only [update_entity, hth, if_pos het, if_neg hne, hidx]
  · rw [dget_updateRecord_id, hid]
  · rw [dget_updateRecord_created_at, hca]
    rfl
  · exact dget_updateRecord_updated_at _ _ _ _
  · intro k h1 h2 h3
    exact dget_updateRecord_other _ _ _ _ k h1 h2 h3 hnd

/-- Witness for C5: renaming the seeded character with id "1", supplying
`created_at` and `updated_at` overrides that the handler must discard. -/
theorem C5_update_witness :
    ∃ updated, update_entity "fantasy_rpg" "characters" "1"
        (some [("name", .s "Z"), ("created_at", .s "1999-01-01 00:00:00"),
               ("updated_at", .s "1999-01-01 00:00:00")])
        "2024-05-05 12:00:00" seeded_store =
        (.ok 200 (.record updated),
         setCol seeded_store "fantasy_rpg" "characters"
          ((seeded_store "fantasy_rpg" "characters").set 0 updated)) ∧
      dget updated "id" =
        dget ((seeded_store "fantasy_rpg" "characters").getD 0 []) "id" ∧
      dget updated "created_at" = some (.s "2023-03-05 11:15:00") ∧
      dget updated "updated_at" = some (.s "2024-05-05 12:00:00") ∧
      (∀ k, k ≠ "id" → k ≠ "created_at" → k ≠ "updated_at" →
        dget updated k =
          oalt (dget [("name", Val.s "Z"),
              ("created_at", Val.s "1999-01-01 00:00:00"),
              ("updated_at", Val.s "1999-01-01 00:00:00")] k)
            (dget ((seeded_store "fantasy_rpg" "characters").getD 0 []) k)) :=
  C5_update "fantasy_rpg" "characters" "1"
    ⟨"Fantasy RPG API",
     "API for managing characters, quests and items in a fantasy world",
     ["characters", "quests", "items"]⟩
    [("name", .s "Z"), ("created_at", .s "1999-01-01 00:00:00"),
     ("updated_at", .s "1999-01-01 00:00:00")]
    "2024-05-05 12:00:00" seeded_store 0 (.s "2023-03-05 11:15:00")
    rfl (by decide) (by decide) (by decide) rfl rfl

/-! ### Claim C9 -/

/-- A 2xx (success) status. -/
def is2xx (s : Nat) : Prop := 200 ≤ s ∧ s < 300

instance decIs2xx (s : Nat) : Decidable (is2xx s) :=
  inferInstanceAs (Decidable (200 ≤ s ∧ s < 300))

theorem list_entities_snd (th et : String) (st : Store) :
    (list_entities th et st).2 = st := by
  cases hth : findTheme th with
  | none => simp [list_entities, hth]
  | some info =>
    by_cases het : et ∈ info.entities <;> simp [list_entities, hth, het]

theorem get_entity_snd (th et eid : String) (st : Store) :
    (get_entity th et eid st).2 = st := by
  cases hth : findTheme th with
  | none => simp [get_entity, hth]
  | some info =>
    by_cases het : et ∈ info.entities
    · cases hfr : findRec (st th et) eid <;>
        simp [get_entity, hth, het, hfr]
    · simp [get_entity, hth, het]

theorem create_entity_preserves (th et : String) (body : Option EntityRec)
    (now : String) (st : Store)
    (h : ¬ is2xx (create_entity th et body now st).1.status) :
    (create_entity th et body now st).2 = st := by
  cases hth : findTheme th with
  | none => simp [create_entity, hth]
  | some info =>
    by_cases het : et ∈ info.entities
    · cases body with
      | none => simp [create_entity, hth, het]
      | some data =>
        by_cases hdat : data = []
        · simp [create_entity, hth, het, hdat]
        · by_cases hreq : required_fields.all
              (fun f => (keys data).contains f) = true
          · exfalso
            apply h
            simp only [create_entity, hth, if_pos het, if_neg hdat,
              if_pos hreq, EResult.status]
            exact ⟨by norm_num, by norm_num⟩
          · simp only [create_entity, hth, if_pos het, if_neg hdat,
              if_neg hreq]
    · simp [create_entity, hth, het]

theorem update_entity_preserves (th et eid : String)
    (body : Option EntityRec) (now : String) (st : Store)
    (h : ¬ is2xx (update_entity th et eid body now st).1.status) :
    (update_entity th et eid body now st).2 = st := by
  cases hth : findTheme th with
  | none => simp [update_entity, hth]
  | some info =>
    by_cases het : et ∈ info.entities
    · cases body with
      | none => simp [update_entity, hth, het]
      | some data =>
        by_cases hdat : data = []
        · simp [update_entity, hth, het, hdat]
        · cases hidx : findIdx (st th et) eid with
          | none => simp [update_entity, hth, het, hdat, hidx]
          | some i =>
            exfalso
            apply h
            simp only [update_entity, hth, if_pos het, if_neg hdat, hidx,
              EResult.status]
            exact ⟨by norm_num, by norm_num⟩
    · simp [update_entity, hth, het]

theorem delete_entity_preserves (th et eid : String) (st : Store)
    (h : ¬ is2xx (delete_entity th et eid st).1.status) :
    (delete_entity th et eid st).2 = st := by
  cases hth : findTheme th with
  | none => simp [delete_entity, hth]
  | some info =>
    by_cases het : et ∈ info.entities
    · cases hidx : findIdx (st th et) eid with
      | none => simp [delete_entity, hth, het, hidx]
      | some i =>
        exfalso
        apply h
        simp only [delete_entity, hth, if_pos het, hidx, EResult.status]
        exact ⟨by norm_num, by norm_num⟩
    · simp [delete_entity, hth, het]

theorem runProtected_preserves {rate r u d : ℚ} {token : Option String}
    {h : Store → EResult × Store} {st : Store}
    (hh : ¬ is2xx (h st).1.status → (h st).2 = st)
    (hno : ¬ is2xx (runProtected rate r u d token h st).1.status) :
    (runProtected rate r u d token h st).2 = st := by
  unfold runProtected at hno ⊢
  cases htk : token_required token with
  | missingToken => simp only [htk]
  | invalidToken => simp only [htk]
  | authorized =>
    simp only [htk] at hno ⊢
    unfold runFault at hno ⊢
    cases hsim : simulate_errors rate r u d with
    | pass =>
      simp only [hsim] at hno ⊢
      exact hh hno
    | delayPass s =>
      simp only [hsim] at hno ⊢
      exact hh hno
    | reject c m => simp only [hsim]

/-- Claim C9 (confirmed): on each of the five entity endpoints, every
request that ends in a non-2xx response leaves the entire store exactly as
it was — every error exit (auth, injected fault, validation, body checks,
unknown id) happens before any mutation. -/
theorem C9_error_atomicity (rate r u d : ℚ) (token : Option String)
    (th et eid : String) (body : Option EntityRec) (now : String)
    (st : Store) :
    (¬ is2xx (listEndpoint rate r u d token th et st).1.status →
      (listEndpoint rate r u d token th et st).2 = st) ∧
    (¬ is2xx (createEndpoint rate r u d token th et body now st).1.status →
      (createEndpoint rate r u d token th et body now st).2 = st) ∧
    (¬ is2xx (getEndpoint rate r u d token th et eid st).1.status →
      (getEndpoint rate r u d token th et eid st).2 = st) ∧
    (¬ is2xx (updateEndpoint rate r u d token th et eid body now
        st).1.status →
      (updateEndpoint rate r u d token th et eid body now st).2 = st) ∧
    (¬ is2xx (deleteEndpoint rate r u d token th et eid st).1.status →
      (deleteEndpoint rate r u d token th et eid st).2 = st) := by
  refine ⟨fun hno => ?_, fun hno => ?_, fun hno => ?_, fun hno => ?_,
    fun hno => ?_⟩
  · exact runProtected_preserves (fun _ => list_entities_snd th et st) hno
  · exact runProtected_preserves
      (create_entity_preserves th et body now st) hno
  · exact runProtected_preserves (fun _ => get_entity_snd th et eid st) hno
  · exact runProtected_preserves
      (update_entity_preserves th et eid body now st) hno
  · exact runProtected_preserves (delete_entity_preserves th et eid st) hno

/-- Witness for C9: an unauthenticated list request leaves the seeded
store untouched. -/
theorem C9_error_atomicity_witness :
    (listEndpoint 0 0 0 0 none "space_exploration" "missions"
      seeded_store).2 = seeded_store :=
  (C9_error_atomicity 0 0 0 0 none "space_exploration" "missions" "1"
    none "t" seeded_store).1 (by decide)

/-! ### Claim C10 -/

/-- Claim C10 (confirmed): a create or update body that parses to an empty
JSON object is rejected 400 "Invalid JSON data" exactly like an absent or
unparsable body (`if not data` is true for the empty dict), while the
distinct missing-required-fields 400 arises only for non-empty bodies. -/
theorem C10_empty_body (th et eid : String) (info : ThemeInfo)
    (now : String) (st : Store)
    (hth : findTheme th = some info) (het : et ∈ info.entities) :
    create_entity th et (some []) now st =
      (.err 400 "Invalid JSON data", st) ∧
    create_entity th et none now st = (.err 400 "Invalid JSON data", st) ∧
    update_entity th et eid (some []) now st =
      (.err 400 "Invalid JSON data", st) ∧
    update_entity th et eid none now st =
      (.err 400 "Invalid JSON data", st) ∧
    (∀ data, data ≠ [] →
      required_fields.all (fun f => (keys data).contains f) = false →
      create_entity th et (some data) now st =
        (.err 400 ("Missing required fields: " ++ String.intercalate ", "
          (required_fields.filter (fun f => !(keys data).contains f))),
         st) ∧
      "Missing required fields: " ++ String.intercalate ", "
          (required_fields.filter (fun f => !(keys data).contains f)) ≠
        "Invalid JSON data") := by
  refine ⟨?_, ?_, ?_, ?_, fun data hne hreq => ⟨?_, ?_⟩⟩
  · simp [create_entity, hth, het]
  · simp [create_entity, hth, het]
  · simp [update_entity, hth, het]
  · simp [update_entity, hth, het]
  · have hcond : ¬ ((required_fields.all
        fun f => (keys data).contains f) = true) := by
      rw [hreq]
      exact Bool.false_ne_true
    simp only [create_entity, hth, if_pos het, if_neg hne, if_neg hcond]
  · intro heq
    have hl := congrArg String.length heq
    rw [String.length_append] at hl
    have h25 : ("Missing required fields: ").length = 25 := rfl
    have h17 : ("Invalid JSON data").length = 17 := rfl
    omega

/-- Witness for C10: the empty object on the seeded traffic-sensors
collection. -/
theorem C10_empty_body_witness :
    create_entity "smart_city" "traffic_sensors" (some []) "t"
        seeded_store = (.err 400 "Invalid JSON data", seeded_store) :=
  (C10_empty_body "smart_city" "traffic_sensors" "1"
    ⟨"Smart City API",
     "API for managing smart city infrastructure and services",
     ["traffic_sensors", "public_transport", "energy_consumption"]⟩
    "t" seeded_store rfl (by decide)).1

end RestApi
